import Mathlib

/-!
Verification development for the starfield / phase-sequencer core of
`src/App.tsx` (repository `lawofassumption`).

The embedding is shallow: JavaScript numbers are modelled as rationals,
JavaScript strings as lists of characters, and the timer-driven sequencer
as functions of elapsed milliseconds since mount. Every definition below
is translated from `src/App.tsx`; line numbers in the doc comments refer
to that file.
-/

namespace StarfieldApp

/-! ## Constants of the renderer and the speed policy -/

/-- `const MAX_Z = 2.5` (App.tsx line 80). -/
def MAX_Z : ℚ := 5/2

/-- `const MIN_Z = 0.001` (App.tsx line 81). -/
def MIN_Z : ℚ := 1/1000

/-- Initial value of `targetSpeedRef` and `speedRef` (App.tsx lines 24-25). -/
def initialSpeed : ℚ := 1/1000

/-- Target speed written by the awakening timer callback (App.tsx line 48):
`targetSpeedRef.current = 0.002`. -/
def awakeningTarget : ℚ := 2/1000

/-- Target speed written by the input effect when the text is non-empty
(App.tsx line 193): `targetSpeedRef.current = 0.003`. -/
def thinkingTarget : ℚ := 3/1000

/-- Target speed written immediately by `handleSimulationStart`
(App.tsx line 201): `targetSpeedRef.current = 0.018`. -/
def burstTarget : ℚ := 18/1000

/-- Target speed written by the burst timeout of `handleSimulationStart`
(App.tsx line 204): `targetSpeedRef.current = 0.006`. -/
def sustainedTarget : ℚ := 6/1000

/-! ## Phase sequencer (App.tsx lines 30-61)

The mount effect arms one outer timer at 2500ms whose callback sets the
phase to `breath` and arms eight further one-shot timers: five
breath-opacity steps at relative offsets 0, 800, 1600, 2400, 3200ms, the
awakening transition at 3500ms, the ready transition at 6500ms and the
visibility flag at 9000ms. All fire times below are absolute (milliseconds
since mount). -/

/-- `type AppPhase = silence | breath | awakening | ready` (App.tsx line 12). -/
inductive AppPhase
  | silence
  | breath
  | awakening
  | ready
  deriving DecidableEq

/-- Position of a phase in the fixed forward order. -/
def phaseIdx : AppPhase → ℕ
  | .silence => 0
  | .breath => 1
  | .awakening => 2
  | .ready => 3

/-- The phase as a function of elapsed time: `silence` until the 2500ms
timer, `breath` until the awakening timer at 2500+3500 = 6000ms,
`awakening` until the ready timer at 2500+6500 = 9000ms, then `ready`
(App.tsx lines 31-58). -/
def phaseAt (t : ℕ) : AppPhase :=
  if t < 2500 then .silence
  else if t < 6000 then .breath
  else if t < 9000 then .awakening
  else .ready

/-- The breath-pulse opacity as a function of elapsed time: the
`breathSequence` steps (App.tsx lines 34-44) fire at absolute times
2500, 3300, 4100, 4900, 5700ms with values 0, 0.3, 0.1, 0.25, 0; the
state starts at 0 (App.tsx line 16). -/
def breathOpacityAt (t : ℕ) : ℚ :=
  if t < 3300 then 0
  else if t < 4100 then 3/10
  else if t < 4900 then 1/10
  else if t < 5700 then 1/4
  else 0

/-- The `isVisible` flag: set by the timer at 2500+9000 = 11500ms
(App.tsx lines 55-57), initially false (line 17). -/
def isVisibleAt (t : ℕ) : Prop := 11500 ≤ t

instance (t : ℕ) : Decidable (isVisibleAt t) := by
  unfold isVisibleAt
  infer_instance

/-- The distinct actions the sequencer timers perform. -/
inductive SeqAction
  | phaseBreath
  | opacity (o : ℚ)
  | phaseAwakening
  | phaseReady
  | visible
  deriving DecidableEq

/-- The eight timers armed inside the breath callback, as (absolute fire
time, action) pairs (App.tsx lines 42-57). -/
def innerTimers : List (ℕ × SeqAction) :=
  [(2500, .opacity 0), (3300, .opacity (3/10)), (4100, .opacity (1/10)),
   (4900, .opacity (1/4)), (5700, .opacity 0),
   (6000, .phaseAwakening), (9000, .phaseReady), (11500, .visible)]

/-- The effect cleanup is `() => clearTimeout(silenceTimer)` (App.tsx
line 60): the only timer it clears is the outer one with fire time 2500ms
and action `phaseBreath`. -/
def timersClearedByCleanup : List (ℕ × SeqAction) := [(2500, .phaseBreath)]

/-- The timers that still fire after a teardown at elapsed time `td`.
Before 2500ms the outer timer is cleared by the cleanup and the inner
timers were never armed, so nothing fires; from 2500ms on the inner
timers are armed and the cleanup clears none of them (it only clears the
already-fired outer timer), so every inner timer with a later fire time
still fires (App.tsx lines 30-61). -/
def timersFiringAfterTeardown (td : ℕ) : List (ℕ × SeqAction) :=
  if td < 2500 then []
  else innerTimers.filter (fun p => td < p.1)

/-! ## Speed easing (App.tsx line 96) -/

/-- One frame of easing:
`speedRef.current += (targetSpeedRef.current - speedRef.current) * 0.05`. -/
def ease (s target : ℚ) : ℚ := s + (target - s) * (5/100)

/-- The current speed after `n` frames of easing from `s0` toward a
constant `target`. -/
def currentSeq (s0 target : ℚ) : ℕ → ℚ
  | 0 => s0
  | n + 1 => ease (currentSeq s0 target n) target

/-! ## Starfield particles (App.tsx lines 79-142) -/

/-- `interface Star` (App.tsx lines 4-10): normalized 3D position and the
optional previous screen-space projection `(prevX, prevY)`. -/
structure Star where
  x : ℚ
  y : ℚ
  z : ℚ
  prev : Option (ℚ × ℚ)
  deriving DecidableEq

/-- The inputs one frame step supplies for one particle: the current
speed, the two `Math.random()`-derived respawn coordinates, and the
canvas width and height. -/
structure FrameInput where
  speed : ℚ
  rx : ℚ
  ry : ℚ
  w : ℚ
  h : ℚ
  deriving DecidableEq

/-- The depth advance and respawn check (App.tsx lines 105-113):
`star.z -= speedRef.current`; if the new `z ≤ MIN_Z` the particle is
respawned with fresh lateral position, `z = MAX_Z` and cleared previous
projection. -/
def updateStarZ (f : FrameInput) (st : Star) : Star :=
  if st.z - f.speed ≤ MIN_Z then
    { x := f.rx, y := f.ry, z := MAX_Z, prev := none }
  else
    { x := st.x, y := st.y, z := st.z - f.speed, prev := st.prev }

/-- Perspective projection (App.tsx lines 115-117): `scale = 1 / star.z`;
`x = star.x * scale * centerX + centerX` and likewise for `y`. -/
def project (cx cy : ℚ) (st : Star) : ℚ × ℚ :=
  (st.x * (1 / st.z) * cx + cx, st.y * (1 / st.z) * cy + cy)

/-- The skip condition (App.tsx line 119): the projection lies more than
50px outside the canvas bounds. -/
def offscreen (w h : ℚ) (p : ℚ × ℚ) : Prop :=
  p.1 < -50 ∨ w + 50 < p.1 ∨ p.2 < -50 ∨ h + 50 < p.2

instance (w h : ℚ) (p : ℚ × ℚ) : Decidable (offscreen w h p) := by
  unfold offscreen
  infer_instance

/-- `size = Math.max(0, (1 - star.z / MAX_Z) * 2)` (App.tsx line 123). -/
def starSize (z : ℚ) : ℚ := max 0 ((1 - z / MAX_Z) * 2)

/-- `opacity = Math.min(1, (1 - star.z / MAX_Z) * 1.5)` (App.tsx line 124). -/
def starOpacity (z : ℚ) : ℚ := min 1 ((1 - z / MAX_Z) * (3/2))

/-- What one frame step does to one particle: the resulting particle
state, whether the dot was drawn, and the trail segment stroked (start
and end point), if any. -/
structure StepResult where
  star : Star
  drawn : Bool
  trailSeg : Option ((ℚ × ℚ) × (ℚ × ℚ))
  deriving DecidableEq

/-- One frame step for one particle (App.tsx lines 104-142): advance and
possibly respawn `z`; project; if the projection is more than 50px
outside the bounds, return early (nothing drawn, `prevX`/`prevY` not
touched); otherwise stroke a trail from the previous projection when one
exists and `z < 0.5`, draw the dot, and store the current projection as
the previous one. -/
def stepStar (f : FrameInput) (st : Star) : StepResult :=
  if offscreen f.w f.h (project (f.w / 2) (f.h / 2) (updateStarZ f st)) then
    { star := updateStarZ f st, drawn := false, trailSeg := none }
  else
    { star := { updateStarZ f st with
                prev := some (project (f.w / 2) (f.h / 2) (updateStarZ f st)) },
      drawn := true,
      trailSeg :=
        match (updateStarZ f st).prev with
        | some q =>
            if (updateStarZ f st).z < 1/2 then
              some (q, project (f.w / 2) (f.h / 2) (updateStarZ f st))
            else none
        | none => none }

/-- A particle carried through a whole list of frame steps. -/
def runStar (fs : List FrameInput) (st : Star) : Star :=
  fs.foldl (fun s f => (stepStar f s).star) st

/-! ## Input-to-speed coupling and the action trigger
(App.tsx lines 191-206 and 287-291) -/

/-- The target speed the input effect writes (App.tsx lines 191-197):
`0.003` when `inputValue.length > 0`, else `0.002`. The length is the
raw, untrimmed length. -/
def targetForInput (s : List Char) : ℚ :=
  if 0 < s.length then thinkingTarget else awakeningTarget

/-- JavaScript `String.prototype.trim`: whitespace stripped from both
ends, modelled on lists of characters. Used by the button
`disabled={!inputValue.trim()}` (App.tsx line 289). -/
def jsTrim (s : List Char) : List Char :=
  ((s.dropWhile Char.isWhitespace).reverse.dropWhile Char.isWhitespace).reverse

/-- The Begin Simulation button is disabled exactly when the trimmed
text is empty (App.tsx line 289). -/
def beginDisabled (s : List Char) : Bool := (jsTrim s).isEmpty

/-- The speed-relevant mutable state touched by `handleSimulationStart`
and the input effect: the target speed and the absolute fire time of the
armed burst timeout, if one is pending. -/
structure SimState where
  targetSpeed : ℚ
  burstFireAt : Option ℕ
  deriving DecidableEq

/-- State at mount: `targetSpeedRef` starts at `0.001` (App.tsx line 25)
and no burst timeout is armed. -/
def initSim : SimState := { targetSpeed := initialSpeed, burstFireAt := none }

/-- `handleSimulationStart` pressed at time `now` (App.tsx lines
199-206): sets the target speed to the burst value and arms a one-shot
timeout for 3500ms later. Nothing ever clears this timeout. -/
def pressBegin (now : ℕ) (_st : SimState) : SimState :=
  { targetSpeed := burstTarget, burstFireAt := some (now + 3500) }

/-- The input effect run after the text changes to `s` (App.tsx lines
191-197): overwrites the target speed, leaves any pending timeout alone. -/
def inputEffect (s : List Char) (st : SimState) : SimState :=
  { st with targetSpeed := targetForInput s }

/-- The burst timeout observed at time `now`: if it is armed and due it
fires, overwriting the target speed with the sustained value (App.tsx
lines 203-205); otherwise nothing happens. -/
def fireBurst (now : ℕ) (st : SimState) : SimState :=
  match st.burstFireAt with
  | some ft =>
      if ft ≤ now then { targetSpeed := sustainedTarget, burstFireAt := none }
      else st
  | none => st

/-! ## Theorems -/

/-- One easing frame multiplies the gap to the target by 19/20. -/
theorem easing_gap_step (s0 target : ℚ) (n : ℕ) :
    target - currentSeq s0 target (n + 1)
      = (target - currentSeq s0 target n) * (19/20) := by
  simp only [currentSeq, ease]
  ring

/-- Closed form of the gap after `n` easing frames. -/
theorem easing_gap_pow (s0 target : ℚ) :
    ∀ n : ℕ, target - currentSeq s0 target n = (target - s0) * (19/20) ^ n
  | 0 => by simp [currentSeq]
  | n + 1 => by rw [easing_gap_step, easing_gap_pow s0 target n]; ring

/-- The absolute gap after `n` easing frames. -/
theorem easing_abs_gap (s0 target : ℚ) (n : ℕ) :
    |target - currentSeq s0 target n| = |target - s0| * (19/20) ^ n := by
  rw [easing_gap_pow, abs_mul,
    abs_of_nonneg (pow_nonneg (by norm_num : (0:ℚ) ≤ 19/20) n)]

/-- Claim C2 — under the per-frame easing step the absolute gap between
the current and the target speed never increases; from below the current
speed is non-decreasing and never exceeds the target, from above it is
non-increasing and never falls below the target (no overshoot, sign of
the gap never flips); and with a constant target the gap falls below any
positive bound from some frame on. -/
theorem c2_easing_converges (s0 target : ℚ) :
    (∀ n : ℕ, |target - currentSeq s0 target (n + 1)| ≤ |target - currentSeq s0 target n|)
    ∧ (∀ n : ℕ, currentSeq s0 target n ≤ target →
        currentSeq s0 target n ≤ currentSeq s0 target (n + 1)
        ∧ currentSeq s0 target (n + 1) ≤ target)
    ∧ (∀ n : ℕ, target ≤ currentSeq s0 target n →
        currentSeq s0 target (n + 1) ≤ currentSeq s0 target n
        ∧ target ≤ currentSeq s0 target (n + 1))
    ∧ (∀ ε : ℚ, 0 < ε → ∃ N : ℕ, ∀ n : ℕ, N ≤ n →
        |target - currentSeq s0 target n| < ε) := by
  refine ⟨?_, ?_, ?_, ?_⟩
  · intro n
    rw [easing_gap_step, abs_mul, abs_of_nonneg (by norm_num : (0:ℚ) ≤ 19/20)]
    exact mul_le_of_le_one_right (abs_nonneg _) (by norm_num)
  · intro n h
    have hg := easing_gap_step s0 target n
    constructor <;> nlinarith [hg, h]
  · intro n h
    have hg := easing_gap_step s0 target n
    constructor <;> nlinarith [hg, h]
  · intro ε hε
    rcases eq_or_ne target s0 with he | he
    · refine ⟨0, fun n _ => ?_⟩
      rw [easing_abs_gap, he]
      simpa using hε
    · have hD : 0 < |target - s0| := abs_pos.mpr (sub_ne_zero.mpr he)
      obtain ⟨N, hN⟩ :=
        exists_pow_lt_of_lt_one (div_pos hε hD) (by norm_num : (19/20:ℚ) < 1)
      refine ⟨N, fun n hn => ?_⟩
      rw [easing_abs_gap]
      calc |target - s0| * (19/20) ^ n
          ≤ |target - s0| * (19/20) ^ N :=
            mul_le_mul_of_nonneg_left
              (pow_le_pow_of_le_one (by norm_num) (by norm_num) hn) (abs_nonneg _)
        _ < |target - s0| * (ε / |target - s0|) := by
            exact mul_lt_mul_of_pos_left hN hD
        _ = ε := by field_simp

/-- Closed instance of C2: easing from 0.001 toward the thinking target,
the gap after one frame is no larger than the initial gap, and it
eventually falls below one millionth. -/
theorem c2_easing_converges_witness :
    |thinkingTarget - currentSeq initialSpeed thinkingTarget 1|
      ≤ |thinkingTarget - currentSeq initialSpeed thinkingTarget 0|
    ∧ ∃ N : ℕ, ∀ n : ℕ, N ≤ n →
        |thinkingTarget - currentSeq initialSpeed thinkingTarget n| < 1/1000000 :=
  ⟨(c2_easing_converges initialSpeed thinkingTarget).1 0,
   (c2_easing_converges initialSpeed thinkingTarget).2.2.2 (1/1000000) (by norm_num)⟩

/-- The z-update of one frame keeps the depth in `(MIN_Z, MAX_Z]` for a
non-negative speed, starting from any depth at most `MAX_Z`. -/
theorem updateStarZ_z_mem (f : FrameInput) (st : Star)
    (hz : st.z ≤ MAX_Z) (hsp : 0 ≤ f.speed) :
    MIN_Z < (updateStarZ f st).z ∧ (updateStarZ f st).z ≤ MAX_Z := by
  unfold updateStarZ
  split_ifs with h
  · constructor
    · show MIN_Z < MAX_Z
      norm_num [MIN_Z, MAX_Z]
    · show MAX_Z ≤ MAX_Z
      exact le_refl _
  · push_neg at h
    constructor
    · show MIN_Z < st.z - f.speed
      exact h
    · show st.z - f.speed ≤ MAX_Z
      linarith

/-- The frame step never changes the depth set by the z-update. -/
theorem stepStar_star_z (f : FrameInput) (st : Star) :
    (stepStar f st).star.z = (updateStarZ f st).z := by
  unfold stepStar
  split_ifs <;> rfl

/-- The depth invariant is preserved by any run of frame steps with
non-negative speeds. -/
theorem runStar_z_mem (fs : List FrameInput) :
    ∀ st : Star, (∀ f ∈ fs, 0 ≤ f.speed) → MIN_Z < st.z → st.z ≤ MAX_Z →
      MIN_Z < (runStar fs st).z ∧ (runStar fs st).z ≤ MAX_Z := by
  induction fs with
  | nil => exact fun st _ h1 h2 => ⟨h1, h2⟩
  | cons f rest ih =>
      intro st hsp _ h2
      have hf : 0 ≤ f.speed := hsp f (List.mem_cons_self f rest)
      have hnext := updateStarZ_z_mem f st h2 hf
      have hrw : runStar (f :: rest) st = runStar rest (stepStar f st).star := by
        simp [runStar]
      rw [hrw]
      refine ih (stepStar f st).star (fun g hg => hsp g (List.mem_cons_of_mem f hg)) ?_ ?_
      · rw [stepStar_star_z]
        exact hnext.1
      · rw [stepStar_star_z]
        exact hnext.2

/-- Claim C1 — across any non-empty run of frame steps with non-negative
speeds, a particle starting with depth at most `MAX_Z` ends with depth in
`(MIN_Z, MAX_Z]`; and whenever the per-frame decrement takes the depth to
or below `MIN_Z`, that same step respawns the particle with the fresh
random lateral coordinates, depth `MAX_Z` and cleared previous
projection, and no trail is stroked for it on that frame. -/
theorem c1_depth_invariant_and_respawn (fs : List FrameInput) (st : Star)
    (hsp : ∀ f ∈ fs, 0 ≤ f.speed) (hz : st.z ≤ MAX_Z) (hne : fs ≠ []) :
    (MIN_Z < (runStar fs st).z ∧ (runStar fs st).z ≤ MAX_Z)
    ∧ (∀ (g : FrameInput) (s : Star), s.z - g.speed ≤ MIN_Z →
        updateStarZ g s = { x := g.rx, y := g.ry, z := MAX_Z, prev := none }
        ∧ (stepStar g s).trailSeg = none) := by
  constructor
  · obtain ⟨f, rest, rfl⟩ := List.exists_cons_of_ne_nil hne
    have hf : 0 ≤ f.speed := hsp f (List.mem_cons_self f rest)
    have hnext := updateStarZ_z_mem f st hz hf
    have hrw : runStar (f :: rest) st = runStar rest (stepStar f st).star := by
      simp [runStar]
    rw [hrw]
    refine runStar_z_mem rest (stepStar f st).star
      (fun g hg => hsp g (List.mem_cons_of_mem f hg)) ?_ ?_
    · rw [stepStar_star_z]
      exact hnext.1
    · rw [stepStar_star_z]
      exact hnext.2
  · intro g s h
    have hresp : updateStarZ g s = { x := g.rx, y := g.ry, z := MAX_Z, prev := none } := by
      unfold updateStarZ
      rw [if_pos h]
    refine ⟨hresp, ?_⟩
    unfold stepStar
    split_ifs with hoff <;> simp [hresp]

/-- Closed instance of C1: one frame at speed 0.01 from depth 1 leaves the
depth inside `(MIN_Z, MAX_Z]`. -/
theorem c1_depth_invariant_and_respawn_witness :
    MIN_Z < (runStar [⟨1/100, 0, 0, 100, 100⟩] ⟨0, 0, 1, none⟩).z
    ∧ (runStar [⟨1/100, 0, 0, 100, 100⟩] ⟨0, 0, 1, none⟩).z ≤ MAX_Z :=
  (c1_depth_invariant_and_respawn [⟨1/100, 0, 0, 100, 100⟩] ⟨0, 0, 1, none⟩
    (by
      intro f hf
      simp only [List.mem_singleton] at hf
      subst hf
      norm_num)
    (by norm_num [MAX_Z])
    (by simp)).1

/-- Claim C9 — a particle whose projection lands more than 50px outside
the surface bounds is skipped entirely for that frame: nothing is drawn,
no trail is stroked, and (when no respawn happened in the same step) its
stored previous projection is left unchanged. Consequently a particle
re-entering view can stroke a trail from its stale previous position: in
the concrete two-frame run below the first frame skips an offscreen
particle, keeping its old previous projection (0, 0), and the second
frame (after a canvas resize) strokes a trail starting at that stale
point. -/
theorem c9_offscreen_skip (f : FrameInput) (st : Star)
    (h : offscreen f.w f.h (project (f.w / 2) (f.h / 2) (updateStarZ f st))) :
    stepStar f st = { star := updateStarZ f st, drawn := false, trailSeg := none }
    ∧ (MIN_Z < st.z - f.speed → (stepStar f st).star.prev = st.prev)
    ∧ ((stepStar ⟨1/10, 0, 0, 800, 800⟩ ⟨1/2, 0, 1/2, some (0, 0)⟩).drawn = false
       ∧ (stepStar ⟨1/10, 0, 0, 800, 800⟩ ⟨1/2, 0, 1/2, some (0, 0)⟩).star.prev
          = some (0, 0)
       ∧ (stepStar ⟨1/10, 0, 0, 100, 100⟩
            (stepStar ⟨1/10, 0, 0, 800, 800⟩ ⟨1/2, 0, 1/2, some (0, 0)⟩).star).trailSeg
          = some ((0, 0), (400/3, 50))) := by
  have hstep : stepStar f st = { star := updateStarZ f st, drawn := false, trailSeg := none } := by
    unfold stepStar
    rw [if_pos h]
  refine ⟨hstep, ?_, ?_, ?_, ?_⟩
  · intro hzpos
    rw [hstep]
    show (updateStarZ f st).prev = st.prev
    unfold updateStarZ
    rw [if_neg (not_le.mpr hzpos)]
  · norm_num [stepStar, updateStarZ, project, offscreen, MIN_Z]
  · norm_num [stepStar, updateStarZ, project, offscreen, MIN_Z]
  · norm_num [stepStar, updateStarZ, project, offscreen, MIN_Z]

/-- Closed instance of C9 at a concrete offscreen frame: the step returns
the particle unchanged apart from the z-update, draws nothing and strokes
no trail. -/
theorem c9_offscreen_skip_witness :
    stepStar ⟨1/10, 0, 0, 800, 800⟩ ⟨1/2, 0, 1/2, some (0, 0)⟩
      = { star := updateStarZ ⟨1/10, 0, 0, 800, 800⟩ ⟨1/2, 0, 1/2, some (0, 0)⟩,
          drawn := false, trailSeg := none } :=
  (c9_offscreen_skip ⟨1/10, 0, 0, 800, 800⟩ ⟨1/2, 0, 1/2, some (0, 0)⟩
    (by norm_num [offscreen, project, updateStarZ, MIN_Z])).1

/-- Claim C8 — From mount, the sequencer enters breath at t=2500ms and runs
the 5-step opacity fade 0, 0.3, 0.1, 0.25, 0 over the next 3200ms (last
step at 2500+3200 = 5700ms); enters awakening at t=6000ms, at which moment
the timer callback writes the low ambient target speed 0.002; enters ready
at t=9000ms; and marks the UI fully visible at t=11500ms. -/
theorem c8_sequencer_timeline :
    phaseAt 2499 = .silence ∧ phaseAt 2500 = .breath
    ∧ breathOpacityAt 2500 = 0 ∧ breathOpacityAt 3300 = 3/10
    ∧ breathOpacityAt 4100 = 1/10 ∧ breathOpacityAt 4900 = 1/4
    ∧ breathOpacityAt 5700 = 0 ∧ 2500 + 3200 = 5700
    ∧ phaseAt 5999 = .breath ∧ phaseAt 6000 = .awakening
    ∧ awakeningTarget = 2/1000
    ∧ phaseAt 8999 = .awakening ∧ phaseAt 9000 = .ready
    ∧ ¬ isVisibleAt 11499 ∧ isVisibleAt 11500 := by
  refine ⟨rfl, rfl, ?_, ?_, ?_, ?_, ?_, rfl, rfl, rfl, rfl, rfl, rfl, ?_, ?_⟩
  all_goals norm_num [breathOpacityAt, isVisibleAt, awakeningTarget]

/-- Claim C3 — the claim says every pending sequencer timer is cleared on
early teardown; the code clears only the outer silence timer (App.tsx line
60). At teardown time 3000ms (after the breath transition at 2500ms) the
seven inner timers with fire times 3300 to 11500ms are still armed and
still fire into the torn-down view. -/
theorem c3_timers_survive_teardown :
    timersFiringAfterTeardown 3000 =
      [(3300, .opacity (3/10)), (4100, .opacity (1/10)), (4900, .opacity (1/4)),
       (5700, .opacity 0), (6000, .phaseAwakening), (9000, .phaseReady),
       (11500, .visible)]
    ∧ timersFiringAfterTeardown 3000 ≠ []
    ∧ timersClearedByCleanup = [(2500, .phaseBreath)] := by
  refine ⟨?_, ?_, rfl⟩
  · simp [timersFiringAfterTeardown, innerTimers]
  · simp [timersFiringAfterTeardown, innerTimers]

/-- Claim C4 counterexample — the whitespace-only input consisting of one
space character has the action trigger disabled (trimmed empty) but the
input-to-speed coupling, which uses the raw untrimmed length, sets the
thinking target 0.003, not the idle awakening value 0.002 the claim
requires for an input that behaves as empty. -/
theorem c4_whitespace_cex :
    beginDisabled [' '] = true
    ∧ targetForInput [' '] = thinkingTarget
    ∧ thinkingTarget ≠ awakeningTarget := by
  refine ⟨by decide, by norm_num [targetForInput], ?_⟩
  norm_num [thinkingTarget, awakeningTarget]

/-- Claim C4 amended — the trimmed, non-empty content gates only the action
trigger: the button is enabled exactly when the trimmed text is non-empty.
The input-to-speed coupling instead uses the raw untrimmed length, so any
non-empty input (including whitespace-only) yields the thinking target
0.003 and only the truly empty input yields the idle awakening value
0.002. -/
theorem c4_trim_gates_trigger_only (s : List Char) :
    (beginDisabled s = false ↔ jsTrim s ≠ [])
    ∧ (jsTrim s ≠ [] → targetForInput s = thinkingTarget)
    ∧ (s = [] → targetForInput s = awakeningTarget)
    ∧ (0 < s.length → targetForInput s = thinkingTarget) := by
  refine ⟨?_, ?_, ?_, ?_⟩
  · simp [beginDisabled, List.isEmpty_iff]
  · intro h
    have hs : s ≠ [] := by
      intro he
      exact h (by simp [he, jsTrim])
    have : 0 < s.length := List.length_pos.mpr hs
    simp [targetForInput, this]
  · intro he
    simp [he, targetForInput]
  · intro h
    simp [targetForInput, h]

/-- Closed instance of the amended C4 statement at the whitespace-only
input of one space character. -/
theorem c4_trim_gates_trigger_only_witness :
    0 < ([' '] : List Char).length ∧ targetForInput [' '] = thinkingTarget :=
  ⟨by decide, (c4_trim_gates_trigger_only [' ']).2.2.2 (by decide)⟩

/-- The order index of the phase at time `t`, as a chain of numeric
conditions. -/
theorem phaseIdx_phaseAt (t : ℕ) :
    phaseIdx (phaseAt t) =
      if t < 2500 then 0 else if t < 6000 then 1 else if t < 9000 then 2 else 3 := by
  unfold phaseAt
  split_ifs <;> rfl

/-- Phases with the same index are equal. -/
theorem phaseIdx_injective (p q : AppPhase) (h : phaseIdx p = phaseIdx q) : p = q := by
  cases p <;> cases q <;> simp_all [phaseIdx]

/-- Claim C5 — the phase starts at `silence`, its order index never
decreases with elapsed time, and from one millisecond to the next it
either stays unchanged or advances to the immediate successor in the
order silence, breath, awakening, ready: the observed phase sequence of
any run, truncated or not, is a prefix of that order and no phase is
revisited. -/
theorem c5_phase_never_regresses :
    phaseAt 0 = AppPhase.silence
    ∧ (∀ t1 t2 : ℕ, t1 ≤ t2 → phaseIdx (phaseAt t1) ≤ phaseIdx (phaseAt t2))
    ∧ (∀ t : ℕ, phaseAt (t + 1) = phaseAt t
        ∨ phaseIdx (phaseAt (t + 1)) = phaseIdx (phaseAt t) + 1) := by
  refine ⟨rfl, ?_, ?_⟩
  · intro t1 t2 h
    rw [phaseIdx_phaseAt, phaseIdx_phaseAt]
    split_ifs <;> omega
  · intro t
    have h : phaseIdx (phaseAt (t + 1)) = phaseIdx (phaseAt t)
        ∨ phaseIdx (phaseAt (t + 1)) = phaseIdx (phaseAt t) + 1 := by
      rw [phaseIdx_phaseAt, phaseIdx_phaseAt]
      split_ifs <;> omega
    rcases h with h | h
    · exact Or.inl (phaseIdx_injective _ _ h)
    · exact Or.inr h

/-- Closed instance of C5: the phase index at 2000ms is at most the phase
index at 7000ms. -/
theorem c5_phase_never_regresses_witness :
    2000 ≤ 7000 ∧ phaseIdx (phaseAt 2000) ≤ phaseIdx (phaseAt 7000) :=
  ⟨by norm_num, c5_phase_never_regresses.2.1 2000 7000 (by norm_num)⟩

/-- Claim C6 — an edit sequence taking the text from empty to any
non-empty value and back to empty drives the target speed through exactly
idle 0.002, thinking 0.003, idle 0.002, and the thinking value is
strictly higher than the idle value. -/
theorem c6_input_speed_cycle (s : List Char) (h : 0 < s.length) :
    [targetForInput [], targetForInput s, targetForInput []]
      = [awakeningTarget, thinkingTarget, awakeningTarget]
    ∧ awakeningTarget < thinkingTarget := by
  constructor
  · simp [targetForInput, h]
  · norm_num [awakeningTarget, thinkingTarget]

/-- Closed instance of C6 at the one-character input a. -/
theorem c6_input_speed_cycle_witness :
    0 < (['a'] : List Char).length
    ∧ [targetForInput [], targetForInput ['a'], targetForInput []]
      = [awakeningTarget, thinkingTarget, awakeningTarget] :=
  ⟨by decide, (c6_input_speed_cycle ['a'] (by decide)).1⟩

/-- Claim C7 — pressing the trigger at time 0 immediately sets the target
speed to the burst value 0.018 and arms a one-shot timeout for exactly
3500ms later; before 3500ms the timeout changes nothing, and from 3500ms
on it sets the target to the sustained value 0.006, which is strictly
above both the idle value 0.002 and the thinking value 0.003. -/
theorem c7_burst_then_sustained (st : SimState) (t : ℕ) :
    (pressBegin 0 st).targetSpeed = burstTarget
    ∧ (pressBegin 0 st).burstFireAt = some 3500
    ∧ (t < 3500 → fireBurst t (pressBegin 0 st) = pressBegin 0 st)
    ∧ (3500 ≤ t → (fireBurst t (pressBegin 0 st)).targetSpeed = sustainedTarget)
    ∧ awakeningTarget < sustainedTarget
    ∧ thinkingTarget < sustainedTarget := by
  refine ⟨rfl, rfl, ?_, ?_, ?_, ?_⟩
  · intro h
    simp only [pressBegin, fireBurst]
    rw [if_neg (by omega)]
  · intro h
    simp only [pressBegin, fireBurst]
    rw [if_pos (by omega)]
  · norm_num [awakeningTarget, sustainedTarget]
  · norm_num [thinkingTarget, sustainedTarget]

/-- Closed instance of C7: at 3500ms the fired timeout has set the
sustained target. -/
theorem c7_burst_then_sustained_witness :
    3500 ≤ 3500 ∧ (fireBurst 3500 (pressBegin 0 initSim)).targetSpeed = sustainedTarget :=
  ⟨by norm_num, (c7_burst_then_sustained initSim 3500).2.2.2.1 (by norm_num)⟩

/-- Claim C10 — press the trigger at time 0 with non-empty text, then
clear the text at any time `tc` before 3500ms: the input effect resets the
target to the idle value 0.002 but leaves the armed burst timeout alone,
and at 3500ms the timeout fires and overwrites the target with the
sustained value 0.006, so the final target speed with empty text is 0.006
and not the idle 0.002. -/
theorem c10_cleared_text_overwritten (tc : ℕ) (h : tc < 3500) :
    (inputEffect [] (pressBegin 0 initSim)).targetSpeed = awakeningTarget
    ∧ (inputEffect [] (pressBegin 0 initSim)).burstFireAt = some 3500
    ∧ fireBurst tc (inputEffect [] (pressBegin 0 initSim))
        = inputEffect [] (pressBegin 0 initSim)
    ∧ (fireBurst 3500 (inputEffect [] (pressBegin 0 initSim))).targetSpeed
        = sustainedTarget
    ∧ sustainedTarget ≠ awakeningTarget := by
  refine ⟨?_, rfl, ?_, ?_, ?_⟩
  · simp [inputEffect, targetForInput]
  · simp only [inputEffect, pressBegin, targetForInput, fireBurst]
    rw [if_neg (by omega)]
  · simp only [inputEffect, pressBegin, targetForInput, fireBurst]
    rw [if_pos (by omega)]
  · norm_num [sustainedTarget, awakeningTarget]

/-- Closed instance of C10 with the text cleared at 1000ms. -/
theorem c10_cleared_text_overwritten_witness :
    1000 < 3500
    ∧ (fireBurst 3500 (inputEffect [] (pressBegin 0 initSim))).targetSpeed
        = sustainedTarget :=
  ⟨by norm_num, (c10_cleared_text_overwritten 1000 (by norm_num)).2.2.2.1⟩

end StarfieldApp
